import Mathlib

/-!
# Verification of the Colts league standings calculator

Shallow embedding of `src/utils/standingsCalculator.js` (the function
`calculateLeagueStandings`) together with the generic data-access layer it
uses (`crudRequest` from `src/utils/authHelpers.js`).

Modelling conventions:

* JS numbers that hold scores, ids and counters are modelled as `Int`
  (scores pass through `parseInt(x) || 0` in the source, so by the time the
  engine uses them they are integers; the coercion itself is string
  handling and is not the subject of any claim).
* The mutable per-team accumulator object `standings[teamID]` is modelled
  as a total map `Int → TeamStanding`; each JS mutation (`team.played++`,
  `team.points += 4`, ...) becomes one functional update applied in source
  order, which is faithful even when `homeTeam === awayTeam` would alias.
* The scorer fields `result.homeScorers` / `result.awayScorers` may be an
  already-structured array, a JSON string that parses to an array, a falsy
  value (treated as `[]`), or a value whose handling throws inside the
  `try` block (malformed JSON string, or a non-array value on which
  `.filter` throws).  `ScorersField.decode` returns `none` exactly in the
  throwing cases.  In the source a throw anywhere in the try-block skips
  the whole 4+ tries bonus section for both teams (single `catch`).
* `crudRequest` (authHelpers.js) either returns a `{status_code, data}`
  object or throws (network error, missing token, expired session).  Read
  and write outcomes are supplied by an `Env` oracle: the two initial
  table reads are success flags, and each iteration of the persistence
  loop draws a `StepOutcome` (normal with read/write success flags, or a
  throw that propagates to the outer `catch`).
* The backing store is a row list plus a fresh-id counter; `create`
  appends a row with the next id, `update` with condition `{id: x}`
  rewrites every row whose id is `x`.
-/

namespace Colts

/-- One entry of a scorer list; the engine only inspects `scoreType`
(`s.scoreType === 'try'`). -/
structure Scorer where
  scoreType : String
  deriving Repr, DecidableEq

/-- The raw value stored in `result.homeScorers` / `result.awayScorers`.
`badVal` stands for any value whose handling throws inside the try-block:
a string `JSON.parse` rejects, or a parsed/structured non-array value on
which `.filter` throws. -/
inductive ScorersField where
  | absent
  | listVal (l : List Scorer)
  | strVal (l : List Scorer)
  | badVal
  deriving Repr, DecidableEq

/-- Decoding of a scorer field, lines 161-164 plus the later `.filter`:
a falsy value becomes the empty list, a structured array or a JSON string
holding an array becomes that list, and `none` marks the throwing cases. -/
def ScorersField.decode : ScorersField → Option (List Scorer)
  | .absent => some []
  | .listVal l => some l
  | .strVal l => some l
  | .badVal => none

/-- A row of `tblresults`; scores already coerced by `parseInt(...) || 0`. -/
structure MatchResult where
  fixtureID : Int
  homeScore : Int
  awayScore : Int
  homeScorers : ScorersField
  awayScorers : ScorersField
  deriving Repr, DecidableEq

/-- A row of `tblfixtures` (status: 0=Scheduled, 1=Underway, 2=Completed,
3=Cancelled, 4=Abandoned). -/
structure Fixture where
  id : Int
  leagueID : Int
  homeTeam : Int
  awayTeam : Int
  status : Int
  deriving Repr, DecidableEq

/-- The in-memory per-team accumulator built by `calculateLeagueStandings`;
`position` is attached after sorting (it starts absent in JS, modelled 0). -/
structure TeamStanding where
  teamID : Int
  played : Int
  won : Int
  drawn : Int
  lost : Int
  pointsFor : Int
  pointsAgainst : Int
  pointsDifference : Int
  bonusPoints : Int
  points : Int
  position : Int
  deriving Repr, DecidableEq

instance : Inhabited TeamStanding :=
  ⟨⟨0, 0, 0, 0, 0, 0, 0, 0, 0, 0, 0⟩⟩

/-- The zeroed accumulator installed for each team id (lines 92-105). -/
def initStanding (teamID : Int) : TeamStanding :=
  { teamID := teamID, played := 0, won := 0, drawn := 0, lost := 0,
    pointsFor := 0, pointsAgainst := 0, pointsDifference := 0,
    bonusPoints := 0, points := 0, position := 0 }

/-- A persisted `tblstandings` row. -/
structure StandingRow where
  id : Int
  leagueID : Int
  teamID : Int
  played : Int
  won : Int
  drawn : Int
  lost : Int
  pointsFor : Int
  pointsAgainst : Int
  pointsDifference : Int
  bonusPoints : Int
  points : Int
  deriving Repr, DecidableEq

/-- The `standingData` payload built for create/update (lines 213-225):
every persisted field except the row id. -/
structure StandingData where
  leagueID : Int
  teamID : Int
  played : Int
  won : Int
  drawn : Int
  lost : Int
  pointsFor : Int
  pointsAgainst : Int
  pointsDifference : Int
  bonusPoints : Int
  points : Int
  deriving Repr, DecidableEq

def mkStandingData (leagueID : Int) (team : TeamStanding) : StandingData :=
  { leagueID := leagueID, teamID := team.teamID, played := team.played,
    won := team.won, drawn := team.drawn, lost := team.lost,
    pointsFor := team.pointsFor, pointsAgainst := team.pointsAgainst,
    pointsDifference := team.pointsDifference,
    bonusPoints := team.bonusPoints, points := team.points }

/-- The payload fields of a persisted row. -/
def rowData (row : StandingRow) : StandingData :=
  { leagueID := row.leagueID, teamID := row.teamID, played := row.played,
    won := row.won, drawn := row.drawn, lost := row.lost,
    pointsFor := row.pointsFor, pointsAgainst := row.pointsAgainst,
    pointsDifference := row.pointsDifference,
    bonusPoints := row.bonusPoints, points := row.points }

/-- Modelled from the spec: the DataStore `update` operation (spec section 6),
whose server implementation is not in the front-end sources.  An update with
condition on the row id overwrites the payload fields and keeps the id. -/
def applyData (row : StandingRow) (d : StandingData) : StandingRow :=
  { id := row.id, leagueID := d.leagueID, teamID := d.teamID,
    played := d.played, won := d.won, drawn := d.drawn, lost := d.lost,
    pointsFor := d.pointsFor, pointsAgainst := d.pointsAgainst,
    pointsDifference := d.pointsDifference,
    bonusPoints := d.bonusPoints, points := d.points }

/-- Modelled from the spec: the DataStore `create` operation (spec section 6).
The backend stores the payload as a fresh row under the next free id. -/
def mkRow (id : Int) (d : StandingData) : StandingRow :=
  { id := id, leagueID := d.leagueID, teamID := d.teamID,
    played := d.played, won := d.won, drawn := d.drawn, lost := d.lost,
    pointsFor := d.pointsFor, pointsAgainst := d.pointsAgainst,
    pointsDifference := d.pointsDifference,
    bonusPoints := d.bonusPoints, points := d.points }

/-- One functional update of the accumulator map at one team id, the
image of a single JS mutation statement on `standings[t]`. -/
def updT (s : Int → TeamStanding) (t : Int) (g : TeamStanding → TeamStanding) :
    Int → TeamStanding :=
  fun x => if x = t then g (s x) else s x

/-- Lines 112-184: process one completed fixture that has a result.
Each JS statement appears in source order. -/
def applyResult (f : Fixture) (r : MatchResult) (s0 : Int → TeamStanding) :
    Int → TeamStanding :=
  let hs := r.homeScore
  let aw := r.awayScore
  -- homeTeam.played++; awayTeam.played++
  let s := updT s0 f.homeTeam (fun t => { t with played := t.played + 1 })
  let s := updT s f.awayTeam (fun t => { t with played := t.played + 1 })
  -- points for / against
  let s := updT s f.homeTeam (fun t =>
    { t with pointsFor := t.pointsFor + hs, pointsAgainst := t.pointsAgainst + aw })
  let s := updT s f.awayTeam (fun t =>
    { t with pointsFor := t.pointsFor + aw, pointsAgainst := t.pointsAgainst + hs })
  -- win / draw / loss and match points
  let s :=
    if aw < hs then
      let s := updT s f.homeTeam (fun t => { t with won := t.won + 1, points := t.points + 4 })
      let s := updT s f.awayTeam (fun t => { t with lost := t.lost + 1 })
      if hs ≤ aw + 7 then
        updT s f.awayTeam (fun t =>
          { t with bonusPoints := t.bonusPoints + 1, points := t.points + 1 })
      else s
    else if hs < aw then
      let s := updT s f.awayTeam (fun t => { t with won := t.won + 1, points := t.points + 4 })
      let s := updT s f.homeTeam (fun t => { t with lost := t.lost + 1 })
      if aw ≤ hs + 7 then
        updT s f.homeTeam (fun t =>
          { t with bonusPoints := t.bonusPoints + 1, points := t.points + 1 })
      else s
    else
      let s := updT s f.homeTeam (fun t => { t with drawn := t.drawn + 1 })
      let s := updT s f.awayTeam (fun t => { t with drawn := t.drawn + 1 })
      let s := updT s f.homeTeam (fun t => { t with points := t.points + 2 })
      updT s f.awayTeam (fun t => { t with points := t.points + 2 })
  -- 4+ tries bonus: one try/catch around BOTH decodes; a throw on either
  -- side skips the whole section (lines 159-179)
  let s :=
    match r.homeScorers.decode, r.awayScorers.decode with
    | some hl, some al =>
      let homeTries := (hl.filter (fun sc => sc.scoreType = "try")).length
      let awayTries := (al.filter (fun sc => sc.scoreType = "try")).length
      let s := if 4 ≤ homeTries then
          updT s f.homeTeam (fun t =>
            { t with bonusPoints := t.bonusPoints + 1, points := t.points + 1 })
        else s
      if 4 ≤ awayTries then
        updT s f.awayTeam (fun t =>
          { t with bonusPoints := t.bonusPoints + 1, points := t.points + 1 })
      else s
    | _, _ => s
  -- recompute cumulative points difference (lines 182-183)
  let s := updT s f.homeTeam (fun t =>
    { t with pointsDifference := t.pointsFor - t.pointsAgainst })
  updT s f.awayTeam (fun t =>
    { t with pointsDifference := t.pointsFor - t.pointsAgainst })

/-- Lines 108-111: skip fixtures with no entry in the results map. -/
def applyFixture (lookup : Int → Option MatchResult) (s : Int → TeamStanding)
    (f : Fixture) : Int → TeamStanding :=
  match lookup f.id with
  | none => s
  | some r => applyResult f r s

/-- Lookup in the results map of lines 78-81
(`resultsMap[result.fixtureID] = result` over the list): last write wins. -/
def resultsLookup (results : List MatchResult) (fid : Int) : Option MatchResult :=
  results.reverse.find? (fun r => r.fixtureID == fid)

/-- Insertion into the JS `Set` of team ids: first occurrence kept. -/
def insertTeam (acc : List Int) (t : Int) : List Int :=
  if t ∈ acc then acc else acc ++ [t]

/-- Lines 84-88: distinct team ids over the filtered fixtures, home then
away, in encounter order.  (JS enumerates integer-like object keys in
ascending numeric order when the accumulators are read back out; no claim
below depends on the enumeration order, only on distinctness.) -/
def collectTeams (fs : List Fixture) : List Int :=
  fs.foldl (fun acc f => insertTeam (insertTeam acc f.homeTeam) f.awayTeam) []

/-- The sort comparator of lines 187-191 (negative means `a` before `b`). -/
def cmpTeams (a b : TeamStanding) : Int :=
  if b.points ≠ a.points then b.points - a.points
  else if b.pointsDifference ≠ a.pointsDifference then
    b.pointsDifference - a.pointsDifference
  else b.pointsFor - a.pointsFor

/-- Relation: `a` may be placed before `b` by the sort comparator. -/
def teamLE (a b : TeamStanding) : Prop := cmpTeams a b ≤ 0

instance : DecidableRel teamLE := fun a b =>
  inferInstanceAs (Decidable (cmpTeams a b ≤ 0))

instance : IsTotal TeamStanding teamLE :=
  ⟨fun a b => by unfold teamLE cmpTeams; split_ifs <;> omega⟩

instance : IsTrans TeamStanding teamLE :=
  ⟨fun a b c => by unfold teamLE cmpTeams; split_ifs <;> omega⟩

/-- Lines 194-196: `team.position = index + 1`, 1-based down the list. -/
def posMap (n : Int) : List TeamStanding → List TeamStanding
  | [] => []
  | t :: ts => { t with position := n } :: posMap (n + 1) ts

def assignPositions (l : List TeamStanding) : List TeamStanding := posMap 1 l

/-- Line 64: `allFixtures.filter(f => f.leagueID === leagueID && f.status === 2)`. -/
def completedLeagueFixtures (leagueID : Int) (fixtures : List Fixture) : List Fixture :=
  fixtures.filter (fun f => decide (f.leagueID = leagueID ∧ f.status = 2))

/-- The team ids that appear in this league's completed fixtures. -/
def completedTeams (leagueID : Int) (fixtures : List Fixture) : List Int :=
  collectTeams (completedLeagueFixtures leagueID fixtures)

/-- The pure part of `calculateLeagueStandings`: filter to this league's
completed fixtures, accumulate, sort, assign positions (lines 63-196). -/
def sortedStandings (leagueID : Int) (fixtures : List Fixture)
    (results : List MatchResult) : List TeamStanding :=
  assignPositions (List.insertionSort teamLE
    ((completedTeams leagueID fixtures).map
      ((completedLeagueFixtures leagueID fixtures).foldl
        (applyFixture (resultsLookup results)) initStanding)))

/-- Modelled from the spec: the outcome of one iteration of the persistence
loop against the DataStore port.  `normal readOk writeOk` means the
standings re-read returns status 200 iff `readOk` (a non-200 read makes the
code fall back to the empty list, lines 205-207) and the create/update
returns a success status iff `writeOk` (the code never inspects that
return value; a failed write stores nothing).  `throwErr` means the read
or write throws (`crudRequest` throws on network errors, missing tokens
and expired sessions), which propagates to the outer catch. -/
inductive StepOutcome where
  | normal (readOk writeOk : Bool)
  | throwErr (msg : String)

/-- Modelled from the spec: the outcome oracle for the DataStore port and the
process-wide current-season configuration (spec sections 4 and 6); the REST
backend answering `crudRequest` is not part of the front-end sources. -/
structure Env where
  currentSeason : String
  fixturesOk : Bool
  resultsOk : Bool
  persistOutcomes : Nat → StepOutcome

/-- Modelled from the spec: the backing store behind the DataStore port
(spec section 6) — the four tables the engine touches plus a fresh-id
counter for created standings rows. -/
structure DB where
  fixtures : List Fixture
  results : List MatchResult
  standings : List StandingRow
  nextId : Int

/-- Caller-facing result record: success flag and message. -/
structure RunResult where
  success : Bool
  message : String
  deriving Repr, DecidableEq

/-- The `existingStandings.find(...)` test of lines 209-211. -/
def findExisting (leagueID teamID : Int) (rows : List StandingRow) :
    Option StandingRow :=
  rows.find? (fun s => decide (s.leagueID = leagueID ∧ s.teamID = teamID))

/-- One iteration of the persistence loop, lines 200-240, given the
read/write success flags of this iteration. -/
def persistStep (leagueID : Int) (team : TeamStanding)
    (readOk writeOk : Bool) (st : List StandingRow × Int) :
    List StandingRow × Int :=
  match findExisting leagueID team.teamID (if readOk then st.1 else []) with
  | some ex =>
    if writeOk then
      (st.1.map (fun row =>
        if row.id = ex.id then applyData row (mkStandingData leagueID team) else row), st.2)
    else st
  | none =>
    if writeOk then
      (st.1 ++ [mkRow st.2 (mkStandingData leagueID team)], st.2 + 1)
    else st

/-- The `for (const team of sortedTeams)` loop, threaded through the
per-iteration outcome oracle; `some msg` aborts the remaining teams and
carries the thrown message to the outer catch. -/
def persistLoop (leagueID : Int) (outcomes : Nat → StepOutcome) :
    List TeamStanding → Nat → List StandingRow × Int →
    (List StandingRow × Int) × Option String
  | [], _, st => (st, none)
  | team :: rest, i, st =>
    match outcomes i with
    | .throwErr msg => (st, some msg)
    | .normal readOk writeOk =>
      persistLoop leagueID outcomes rest (i + 1)
        (persistStep leagueID team readOk writeOk st)

/-- The full operation `calculateLeagueStandings(leagueID, leagueSeason)`
of lines 46-248: season gate, the two table reads, the pure computation,
the persistence loop, and the outer `catch`. -/
def calculateLeagueStandings (leagueID : Int) (leagueSeason : String)
    (env : Env) (db : DB) : DB × RunResult :=
  if leagueSeason ≠ env.currentSeason then
    (db, { success := true, message := "Not current season" })
  else if env.fixturesOk = false then
    (db, { success := false, message := "Failed to fetch fixtures" })
  else if env.resultsOk = false then
    (db, { success := false, message := "Failed to fetch results" })
  else
    let sortedTeams := sortedStandings leagueID db.fixtures db.results
    let res := persistLoop leagueID env.persistOutcomes sortedTeams 0
      (db.standings, db.nextId)
    let db' := { db with standings := res.1.1, nextId := res.1.2 }
    match res.2 with
    | some msg => (db', { success := false, message := msg })
    | none => (db', { success := true, message := "Standings updated successfully" })

/-- Number of entries with score type `"try"` in a scorer list. -/
def tries (l : List Scorer) : Nat :=
  (l.filter (fun sc => sc.scoreType = "try")).length

/-- The spec's ranking relation between a row and the row below it:
strictly more points, or equal points and strictly better difference, or
equal on both and at least as many points scored. -/
def rankedAboveOrTied (a b : TeamStanding) : Prop :=
  a.points > b.points ∨
  (a.points = b.points ∧ a.pointsDifference > b.pointsDifference) ∨
  (a.points = b.points ∧ a.pointsDifference = b.pointsDifference ∧
    a.pointsFor ≥ b.pointsFor)

/-- Well-formedness of the backing store: row ids are pairwise distinct
and every id is below the fresh-id counter. -/
def goodIds (st : List StandingRow × Int) : Prop :=
  (st.1.map (fun r => r.id)).Nodup ∧ ∀ r ∈ st.1, r.id < st.2

/-- Uniqueness invariant of the standings store: at most one row per
(leagueID, teamID) pair. -/
def keysOk (rows : List StandingRow) : Prop :=
  (rows.map (fun r => (r.leagueID, r.teamID))).Nodup

instance (rows : List StandingRow) : Decidable (keysOk rows) := by
  unfold keysOk
  infer_instance

instance (st : List StandingRow × Int) : Decidable (goodIds st) := by
  unfold goodIds
  infer_instance

def wFixture : Fixture := ⟨100, 1, 10, 20, 2⟩

def wResult : MatchResult := ⟨100, 20, 13, .absent, .absent⟩

def envAllOk : Env := ⟨"2025-26", true, true, fun _ => .normal true true⟩

def envFailWrite : Env := ⟨"2025-26", true, true, fun _ => .normal true false⟩

def envThrow : Env :=
  ⟨"2025-26", true, true,
    fun i => if i = 0 then .throwErr "Network error" else .normal true true⟩

def fourTries : List Scorer := [⟨"try"⟩, ⟨"try"⟩, ⟨"try"⟩, ⟨"try"⟩]

def wDB : DB := ⟨[wFixture], [wResult], [], 1⟩

def wForeignRow : StandingRow := ⟨7, 2, 99, 1, 1, 0, 0, 30, 10, 20, 0, 4⟩

def wDB10 : DB := ⟨[wFixture], [wResult], [wForeignRow], 8⟩

theorem updT_same (s : Int → TeamStanding) (t : Int) (g : TeamStanding → TeamStanding) :
    updT s t g t = g (s t) := by
  simp [updT]

theorem updT_other (s : Int → TeamStanding) (t : Int) (g : TeamStanding → TeamStanding)
    (x : Int) (h : x ≠ t) : updT s t g x = s x := by
  simp [updT, h]

set_option maxHeartbeats 1600000 in

theorem cmpTeams_le_iff (a b : TeamStanding) :
    cmpTeams a b ≤ 0 ↔ rankedAboveOrTied a b := by
  unfold cmpTeams rankedAboveOrTied
  split_ifs <;> omega

theorem posMap_length (n : Int) (l : List TeamStanding) :
    (posMap n l).length = l.length := by
  induction l generalizing n with
  | nil => rfl
  | cons t ts ih => simp [posMap, ih]

theorem posMap_get (l : List TeamStanding) (n : Int) (i : Nat)
    (h : i < (posMap n l).length) :
    ((posMap n l).get ⟨i, h⟩).position = n + i := by
  induction l generalizing n i with
  | nil => simp [posMap] at h
  | cons t ts ih =>
    cases i with
    | zero => simp [posMap]
    | succ j =>
      have := ih (n + 1) j (by simpa [posMap, Nat.succ_lt_succ_iff] using h)
      simp only [posMap, List.get_cons_succ]
      rw [this]
      push_cast
      ring

theorem posMap_mem (l : List TeamStanding) (n : Int) (b : TeamStanding)
    (hb : b ∈ posMap n l) : ∃ a m, a ∈ l ∧ b = { a with position := m } := by
  induction l generalizing n with
  | nil => simp [posMap] at hb
  | cons t ts ih =>
    simp only [posMap, List.mem_cons] at hb
    rcases hb with hb | hb
    · exact ⟨t, n, List.mem_cons_self t ts, hb⟩
    · obtain ⟨a, m, ha, he⟩ := ih (n + 1) hb
      exact ⟨a, m, List.mem_cons_of_mem _ ha, he⟩

theorem posMap_pairwise (l : List TeamStanding) (n : Int)
    (h : l.Pairwise rankedAboveOrTied) :
    (posMap n l).Pairwise rankedAboveOrTied := by
  induction l generalizing n with
  | nil => simp [posMap]
  | cons t ts ih =>
    simp only [List.pairwise_cons] at h
    obtain ⟨h1, h2⟩ := h
    simp only [posMap, List.pairwise_cons]
    refine ⟨fun b hb => ?_, ih (n + 1) h2⟩
    obtain ⟨a, m, ha, rfl⟩ := posMap_mem ts (n + 1) b hb
    have := h1 a ha
    simpa [rankedAboveOrTied] using this

theorem findExisting_def (leagueID tid : Int) (rows : List StandingRow) :
    findExisting leagueID tid rows =
      rows.find? (fun s => decide (s.leagueID = leagueID ∧ s.teamID = tid)) := rfl

theorem findExisting_prop (leagueID tid : Int) (rows : List StandingRow)
    (ex : StandingRow) (h : findExisting leagueID tid rows = some ex) :
    ex.leagueID = leagueID ∧ ex.teamID = tid ∧ ex ∈ rows := by
  unfold findExisting at h
  have h1 := List.find?_some h
  have h2 := List.mem_of_find?_eq_some h
  simp only [decide_eq_true_eq] at h1
  exact ⟨h1.1, h1.2, h2⟩

theorem findExisting_none_prop (leagueID tid : Int) (rows : List StandingRow)
    (h : findExisting leagueID tid rows = none) :
    ∀ x ∈ rows, ¬(x.leagueID = leagueID ∧ x.teamID = tid) := by
  unfold findExisting at h
  intro x hx
  have := List.find?_eq_none.mp h x hx
  simpa using this

theorem applyData_self (row : StandingRow) (d : StandingData)
    (h : rowData row = d) : applyData row d = row := by
  subst h
  rfl

theorem find?_map_congr {α : Type} (l : List α) (g : α → α) (p : α → Bool)
    (h : ∀ x ∈ l, p (g x) = p x ∧ (p x = true → g x = x)) :
    (l.map g).find? p = l.find? p := by
  induction l with
  | nil => rfl
  | cons a l ih =>
    have ha := h a (List.mem_cons_self a l)
    simp only [List.map_cons, List.find?_cons, ha.1]
    cases hpa : p a with
    | true => rw [ha.2 hpa]
    | false => exact ih (fun x hx => h x (List.mem_cons_of_mem a hx))

theorem find?_append_some {α : Type} (p : α → Bool) (l l' : List α) (a : α)
    (h : l.find? p = some a) : (l ++ l').find? p = some a := by
  induction l with
  | nil => simp [List.find?] at h
  | cons b l ih =>
    simp only [List.find?_cons] at h
    simp only [List.cons_append, List.find?_cons]
    cases hpb : p b with
    | true => rw [hpb] at h; exact h
    | false => rw [hpb] at h; exact ih h

theorem find?_append_none {α : Type} (p : α → Bool) (l l' : List α)
    (h : l.find? p = none) : (l ++ l').find? p = l'.find? p := by
  induction l with
  | nil => rfl
  | cons b l ih =>
    simp only [List.find?_cons] at h
    simp only [List.cons_append, List.find?_cons]
    cases hpb : p b with
    | true => rw [hpb] at h; simp at h
    | false => rw [hpb] at h; exact ih h

theorem find?_map_by_id {α : Type} (p : α → Bool) (idf : α → Int) (l : List α)
    (hnd : (l.map idf).Nodup) (ex : α) (h : α → α)
    (hfind : l.find? p = some ex) (hpg : p (h ex) = true) :
    (l.map (fun x => if idf x = idf ex then h x else x)).find? p = some (h ex) := by
  induction l with
  | nil => simp at hfind
  | cons a l ih =>
    rw [List.find?_cons] at hfind
    simp only [List.map_cons, List.find?_cons]
    cases hpa : p a with
    | true =>
      rw [hpa] at hfind
      have hae : a = ex := by injection hfind
      subst hae
      rw [if_pos rfl, hpg]
    | false =>
      rw [hpa] at hfind
      have hmem : ex ∈ l := List.mem_of_find?_eq_some hfind
      have hane : idf a ≠ idf ex := by
        simp only [List.map_cons, List.nodup_cons] at hnd
        intro he
        exact hnd.1 (he ▸ List.mem_map_of_mem idf hmem)
      rw [if_neg hane, hpa]
      refine ih ?_ hfind
      simp only [List.map_cons, List.nodup_cons] at hnd
      exact hnd.2

theorem persistStep_rfalse (leagueID : Int) (t : TeamStanding) (wOk : Bool)
    (rows : List StandingRow) (n : Int) :
    persistStep leagueID t false wOk (rows, n) =
      if wOk then (rows ++ [mkRow n (mkStandingData leagueID t)], n + 1)
      else (rows, n) := rfl

theorem persistStep_rtrue_none (leagueID : Int) (t : TeamStanding) (wOk : Bool)
    (rows : List StandingRow) (n : Int)
    (hfind : findExisting leagueID t.teamID rows = none) :
    persistStep leagueID t true wOk (rows, n) =
      if wOk then (rows ++ [mkRow n (mkStandingData leagueID t)], n + 1)
      else (rows, n) := by
  simp [persistStep, hfind]

theorem persistStep_rtrue_some (leagueID : Int) (t : TeamStanding) (wOk : Bool)
    (rows : List StandingRow) (n : Int) (ex : StandingRow)
    (hfind : findExisting leagueID t.teamID rows = some ex) :
    persistStep leagueID t true wOk (rows, n) =
      if wOk then
        (rows.map (fun row =>
          if row.id = ex.id then applyData row (mkStandingData leagueID t) else row), n)
      else (rows, n) := by
  simp [persistStep, hfind]

theorem persistStep_goodIds (leagueID : Int) (t : TeamStanding)
    (rOk wOk : Bool) (st : List StandingRow × Int) (hg : goodIds st) :
    goodIds (persistStep leagueID t rOk wOk st) := by
  obtain ⟨rows, n⟩ := st
  obtain ⟨hnd, hbd⟩ := hg
  unfold persistStep
  cases hfind : findExisting leagueID t.teamID (if rOk then rows else []) with
  | some ex =>
    cases wOk with
    | false => exact ⟨hnd, hbd⟩
    | true =>
      simp only [if_true]
      constructor
      · have hids : (rows.map (fun row =>
            if row.id = ex.id then applyData row (mkStandingData leagueID t) else row)).map
              (fun r => r.id) = rows.map (fun r => r.id) := by
          rw [List.map_map]
          apply List.map_congr_left
          intro x _
          by_cases h : x.id = ex.id <;> simp [h, applyData]
        simpa [hids] using hnd
      · intro r hr
        obtain ⟨x, hx, hxe⟩ := List.mem_map.mp hr
        by_cases h : x.id = ex.id
        · simp only [h, if_true] at hxe
          rw [← hxe]
          simpa [applyData, h] using hbd x hx
        · simp only [h, if_false] at hxe
          rw [← hxe]
          exact hbd x hx
  | none =>
    cases wOk with
    | false => exact ⟨hnd, hbd⟩
    | true =>
      simp only [if_true]
      constructor
      · simp only [List.map_append, List.map_cons, List.map_nil]
        rw [List.nodup_append]
        refine ⟨hnd, List.nodup_singleton _, ?_⟩
        intro a ha hb
        simp only [mkRow, List.mem_singleton] at hb
        obtain ⟨x, hx, hxe⟩ := List.mem_map.mp ha
        have := hbd x hx
        omega
      · intro r hr
        rcases List.mem_append.mp hr with h | h
        · have := hbd r h
          omega
        · simp only [List.mem_singleton] at h
          subst h
          simp [mkRow]

theorem persistStep_establish (leagueID : Int) (t : TeamStanding)
    (st : List StandingRow × Int) (hg : goodIds st) :
    ∃ ex, findExisting leagueID t.teamID (persistStep leagueID t true true st).1 = some ex ∧
      rowData ex = mkStandingData leagueID t := by
  obtain ⟨rows, n⟩ := st
  unfold persistStep
  simp only [if_true]
  cases hfind : findExisting leagueID t.teamID rows with
  | some ex =>
    refine ⟨applyData ex (mkStandingData leagueID t), ?_, rfl⟩
    rw [findExisting_def]
    rw [findExisting_def] at hfind
    exact find?_map_by_id _ (fun r => r.id) rows hg.1 ex
      (fun row => applyData row (mkStandingData leagueID t)) hfind
      (by simp [applyData, mkStandingData])
  | none =>
    refine ⟨mkRow n (mkStandingData leagueID t), ?_, rfl⟩
    rw [findExisting_def]
    rw [findExisting_def] at hfind
    rw [find?_append_none _ _ _ hfind]
    simp [List.find?_cons, mkRow, mkStandingData]

theorem persistStep_preserve_found (leagueID : Int) (t' : TeamStanding)
    (rOk wOk : Bool) (st : List StandingRow × Int) (hg : goodIds st)
    (tid : Int) (htid : tid ≠ t'.teamID) (ex : StandingRow)
    (hfound : findExisting leagueID tid st.1 = some ex) :
    findExisting leagueID tid (persistStep leagueID t' rOk wOk st).1 = some ex := by
  obtain ⟨rows, n⟩ := st
  rw [findExisting_def] at hfound
  cases rOk with
  | false =>
    rw [persistStep_rfalse]
    cases wOk with
    | false => exact hfound
    | true => exact find?_append_some _ _ _ _ hfound
  | true =>
    cases hfind : findExisting leagueID t'.teamID rows with
    | none =>
      rw [persistStep_rtrue_none leagueID t' wOk rows n hfind]
      cases wOk with
      | false => exact hfound
      | true => exact find?_append_some _ _ _ _ hfound
    | some ex' =>
      rw [persistStep_rtrue_some leagueID t' wOk rows n ex' hfind]
      cases wOk with
      | false => exact hfound
      | true =>
        have hexmem := (findExisting_prop _ _ _ _ hfind).2.2
        have hexteam := (findExisting_prop _ _ _ _ hfind).2.1
        have hcongr := find?_map_congr rows
          (fun row => if row.id = ex'.id then applyData row (mkStandingData leagueID t') else row)
          (fun s => decide (s.leagueID = leagueID ∧ s.teamID = tid)) ?_
        · exact hcongr.trans hfound
        · intro x hx
          by_cases hid : x.id = ex'.id
          · have hxe : x = ex' :=
              List.inj_on_of_nodup_map hg.1 hx hexmem hid
            subst hxe
            constructor
            · simp [hid, applyData, mkStandingData, hexteam, Ne.symm htid]
            · intro hp
              simp only [decide_eq_true_eq] at hp
              exact absurd (hexteam ▸ hp.2) (Ne.symm htid)
          · simp [hid]

theorem persistLoop_nothrow_snd (leagueID : Int) (outcomes : Nat → StepOutcome)
    (ts : List TeamStanding) (k : Nat) (st : List StandingRow × Int)
    (h : ∀ i msg, outcomes i ≠ .throwErr msg) :
    (persistLoop leagueID outcomes ts k st).2 = none := by
  induction ts generalizing k st with
  | nil => rfl
  | cons t rest ih =>
    simp only [persistLoop]
    cases ho : outcomes k with
    | throwErr msg => exact absurd ho (h k msg)
    | normal r w => exact ih (k + 1) _

theorem persistLoop_throw_snd (leagueID : Int) (outcomes : Nat → StepOutcome)
    (ts : List TeamStanding) (k : Nat) (st : List StandingRow × Int)
    (i : Nat) (msg : String)
    (hthrow : outcomes i = .throwErr msg)
    (hbefore : ∀ j, k ≤ j → j < i → ∀ m, outcomes j ≠ .throwErr m)
    (hk : k ≤ i) (hlen : i < k + ts.length) :
    (persistLoop leagueID outcomes ts k st).2 = some msg := by
  induction ts generalizing k st with
  | nil => simp at hlen; omega
  | cons t rest ih =>
    simp only [persistLoop]
    rcases Nat.eq_or_lt_of_le hk with heq | hlt
    · subst heq
      rw [hthrow]
    · cases ho : outcomes k with
      | throwErr m => exact absurd ho (hbefore k le_rfl hlt m)
      | normal r w =>
        refine ih (k + 1) _ (fun j h1 h2 m => hbefore j (by omega) h2 m) hlt ?_
        simp at hlen
        omega

theorem persistLoop_goodIds (leagueID : Int) (outcomes : Nat → StepOutcome)
    (ts : List TeamStanding) (k : Nat) (st : List StandingRow × Int)
    (hg : goodIds st) :
    goodIds (persistLoop leagueID outcomes ts k st).1 := by
  induction ts generalizing k st with
  | nil => exact hg
  | cons t rest ih =>
    simp only [persistLoop]
    cases ho : outcomes k with
    | throwErr msg => exact hg
    | normal r w => exact ih (k + 1) _ (persistStep_goodIds _ _ _ _ _ hg)

theorem persistLoop_preserve_found (leagueID : Int) (outcomes : Nat → StepOutcome)
    (ts : List TeamStanding) (k : Nat) (st : List StandingRow × Int)
    (tid : Int) (ex : StandingRow) (hg : goodIds st)
    (hnot : tid ∉ ts.map (fun t => t.teamID))
    (hfound : findExisting leagueID tid st.1 = some ex) :
    findExisting leagueID tid (persistLoop leagueID outcomes ts k st).1.1 = some ex := by
  induction ts generalizing k st with
  | nil => exact hfound
  | cons t rest ih =>
    simp only [List.map_cons, List.mem_cons] at hnot
    push_neg at hnot
    simp only [persistLoop]
    cases ho : outcomes k with
    | throwErr msg => exact hfound
    | normal r w =>
      exact ih (k + 1) _ (persistStep_goodIds _ _ _ _ _ hg) hnot.2
        (persistStep_preserve_found _ _ _ _ _ hg _ hnot.1 _ hfound)

theorem persistLoop_allok_post (leagueID : Int) (outcomes : Nat → StepOutcome)
    (ts : List TeamStanding) (k : Nat) (st : List StandingRow × Int)
    (hout : ∀ i, outcomes i = .normal true true)
    (hg : goodIds st) (hnd : (ts.map (fun t => t.teamID)).Nodup) :
    ∀ t ∈ ts, ∃ ex,
      findExisting leagueID t.teamID (persistLoop leagueID outcomes ts k st).1.1 = some ex ∧
      rowData ex = mkStandingData leagueID t := by
  induction ts generalizing k st with
  | nil => intro t ht; simp at ht
  | cons t rest ih =>
    intro u hu
    simp only [persistLoop, hout k]
    simp only [List.map_cons, List.nodup_cons] at hnd
    rcases List.mem_cons.mp hu with rfl | hu'
    · obtain ⟨ex, hex, hdata⟩ := persistStep_establish leagueID u st hg
      exact ⟨ex, persistLoop_preserve_found _ _ rest (k + 1) _ _ ex
        (persistStep_goodIds _ _ _ _ _ hg) hnd.1 hex, hdata⟩
    · exact ih (k + 1) _ (persistStep_goodIds _ _ _ _ _ hg) hnd.2 u hu'

theorem persistStep_id (leagueID : Int) (t : TeamStanding)
    (st : List StandingRow × Int) (hg : goodIds st) (ex : StandingRow)
    (hex : findExisting leagueID t.teamID st.1 = some ex)
    (hdata : rowData ex = mkStandingData leagueID t) :
    persistStep leagueID t true true st = st := by
  obtain ⟨rows, n⟩ := st
  rw [persistStep_rtrue_some leagueID t true rows n ex hex, if_pos rfl]
  have hmap : rows.map (fun row =>
      if row.id = ex.id then applyData row (mkStandingData leagueID t) else row) = rows := by
    conv_rhs => rw [← List.map_id rows]
    apply List.map_congr_left
    intro x hx
    by_cases hidx : x.id = ex.id
    · have hxe : x = ex :=
        List.inj_on_of_nodup_map hg.1 hx ((findExisting_prop _ _ _ _ hex).2.2) hidx
      subst hxe
      simp [applyData_self _ _ hdata]
    · simp [hidx]
  rw [hmap]

theorem persistLoop_id (leagueID : Int) (outcomes : Nat → StepOutcome)
    (ts : List TeamStanding) (k : Nat) (st : List StandingRow × Int)
    (hout : ∀ i, outcomes i = .normal true true) (hg : goodIds st)
    (hfound : ∀ t ∈ ts, ∃ ex, findExisting leagueID t.teamID st.1 = some ex ∧
      rowData ex = mkStandingData leagueID t) :
    persistLoop leagueID outcomes ts k st = (st, none) := by
  induction ts generalizing k with
  | nil => rfl
  | cons t rest ih =>
    simp only [persistLoop, hout k]
    obtain ⟨ex, hex, hdata⟩ := hfound t (List.mem_cons_self t rest)
    rw [persistStep_id leagueID t st hg ex hex hdata]
    exact ih (k + 1) (fun u hu => hfound u (List.mem_cons_of_mem _ hu))

theorem updT_teamID (s : Int → TeamStanding) (t : Int)
    (g : TeamStanding → TeamStanding) (x : Int)
    (hg : ∀ u, (g u).teamID = u.teamID) :
    ((updT s t g) x).teamID = (s x).teamID := by
  unfold updT
  split_ifs with h
  · rw [hg (s x)]
  · rfl

set_option maxHeartbeats 1000000 in
theorem applyResult_teamID (f : Fixture) (r : MatchResult)
    (s : Int → TeamStanding) (x : Int) :
    ((applyResult f r s) x).teamID = (s x).teamID := by
  cases hh : r.homeScorers.decode <;> cases ha : r.awayScorers.decode <;>
    by_cases hxh : x = f.homeTeam <;> by_cases hxa : x = f.awayTeam <;>
      simp [applyResult, updT, hh, ha, hxh, hxa, ite_apply,
        apply_ite (fun t : TeamStanding => t.teamID)]

theorem applyFixture_teamID (lookup : Int → Option MatchResult)
    (s : Int → TeamStanding) (f : Fixture) (x : Int) :
    ((applyFixture lookup s f) x).teamID = (s x).teamID := by
  unfold applyFixture
  cases lookup f.id with
  | none => rfl
  | some r => exact applyResult_teamID f r s x

theorem foldl_applyFixture_teamID (lookup : Int → Option MatchResult)
    (fs : List Fixture) (s : Int → TeamStanding) (x : Int) :
    ((fs.foldl (applyFixture lookup) s) x).teamID = (s x).teamID := by
  induction fs generalizing s with
  | nil => rfl
  | cons f fs ih =>
    simp only [List.foldl_cons]
    rw [ih, applyFixture_teamID]

theorem insertTeam_nodup (acc : List Int) (t : Int) (h : acc.Nodup) :
    (insertTeam acc t).Nodup := by
  unfold insertTeam
  split_ifs with ht
  · exact h
  · simp [List.nodup_append, h, ht]

theorem collectTeams_nodup (fs : List Fixture) : (collectTeams fs).Nodup := by
  unfold collectTeams
  have : ∀ acc : List Int, acc.Nodup →
      (fs.foldl (fun acc f => insertTeam (insertTeam acc f.homeTeam) f.awayTeam) acc).Nodup := by
    induction fs with
    | nil => exact fun acc h => h
    | cons f fs ih =>
      intro acc h
      exact ih _ (insertTeam_nodup _ _ (insertTeam_nodup _ _ h))
  exact this [] List.nodup_nil

theorem posMap_map_teamID (l : List TeamStanding) (n : Int) :
    (posMap n l).map (fun t => t.teamID) = l.map (fun t => t.teamID) := by
  induction l generalizing n with
  | nil => rfl
  | cons t ts ih => simp [posMap, ih]

theorem sortedStandings_teamIDs_nodup (leagueID : Int) (fixtures : List Fixture)
    (results : List MatchResult) :
    ((sortedStandings leagueID fixtures results).map (fun t => t.teamID)).Nodup := by
  unfold sortedStandings assignPositions
  rw [posMap_map_teamID]
  have hperm := List.perm_insertionSort teamLE
    ((completedTeams leagueID fixtures).map
      ((completedLeagueFixtures leagueID fixtures).foldl
        (applyFixture (resultsLookup results)) initStanding))
  rw [(hperm.map (fun t => t.teamID)).nodup_iff]
  rw [List.map_map]
  have hid : ((completedTeams leagueID fixtures).map
      ((fun t => t.teamID) ∘
        ((completedLeagueFixtures leagueID fixtures).foldl
          (applyFixture (resultsLookup results)) initStanding))) =
      completedTeams leagueID fixtures := by
    conv_rhs => rw [← List.map_id (completedTeams leagueID fixtures)]
    apply List.map_congr_left
    intro u _
    simp only [Function.comp_apply, id_eq]
    rw [foldl_applyFixture_teamID]
    rfl
  rw [hid]
  exact collectTeams_nodup _

theorem sortedStandings_teamID_mem (leagueID : Int) (fixtures : List Fixture)
    (results : List MatchResult) (t : TeamStanding)
    (ht : t ∈ sortedStandings leagueID fixtures results) :
    t.teamID ∈ completedTeams leagueID fixtures := by
  unfold sortedStandings assignPositions at ht
  obtain ⟨a, m, ha, rfl⟩ := posMap_mem _ _ _ ht
  have ha2 := (List.mem_insertionSort teamLE).mp ha
  obtain ⟨u, hu, rfl⟩ := List.mem_map.mp ha2
  have := foldl_applyFixture_teamID (resultsLookup results)
    (completedLeagueFixtures leagueID fixtures) initStanding u
  simpa [this, initStanding] using hu

theorem calc_run_allok (leagueID : Int) (env : Env) (db : DB)
    (hf : env.fixturesOk = true) (hr : env.resultsOk = true)
    (hout : ∀ i, env.persistOutcomes i = .normal true true) :
    calculateLeagueStandings leagueID env.currentSeason env db =
      ({ db with
          standings := (persistLoop leagueID env.persistOutcomes
            (sortedStandings leagueID db.fixtures db.results) 0
            (db.standings, db.nextId)).1.1,
          nextId := (persistLoop leagueID env.persistOutcomes
            (sortedStandings leagueID db.fixtures db.results) 0
            (db.standings, db.nextId)).1.2 },
        { success := true, message := "Standings updated successfully" }) := by
  have hnothrow : ∀ i msg, env.persistOutcomes i ≠ .throwErr msg := by
    intro i msg h
    rw [hout i] at h
    exact StepOutcome.noConfusion h
  have h2 := persistLoop_nothrow_snd leagueID env.persistOutcomes
    (sortedStandings leagueID db.fixtures db.results) 0 (db.standings, db.nextId) hnothrow
  rcases hres : persistLoop leagueID env.persistOutcomes
    (sortedStandings leagueID db.fixtures db.results) 0 (db.standings, db.nextId)
    with ⟨st1, err⟩
  rw [hres] at h2
  simp only at h2
  subst h2
  simp [calculateLeagueStandings, hf, hr, hres]

theorem persistStep_keysOk (leagueID : Int) (t : TeamStanding) (wOk : Bool)
    (st : List StandingRow × Int) (hg : goodIds st) (hk : keysOk st.1) :
    keysOk (persistStep leagueID t true wOk st).1 := by
  obtain ⟨rows, n⟩ := st
  cases hfind : findExisting leagueID t.teamID rows with
  | some ex =>
    rw [persistStep_rtrue_some _ _ _ _ _ _ hfind]
    cases wOk with
    | false => exact hk
    | true =>
      have hprop := findExisting_prop _ _ _ _ hfind
      have hkeys : ((rows.map (fun row =>
          if row.id = ex.id then applyData row (mkStandingData leagueID t) else row)).map
            (fun r => (r.leagueID, r.teamID))) =
          rows.map (fun r => (r.leagueID, r.teamID)) := by
        rw [List.map_map]
        apply List.map_congr_left
        intro x hx
        by_cases hid : x.id = ex.id
        · have hxe : x = ex :=
            List.inj_on_of_nodup_map hg.1 hx hprop.2.2 hid
          subst hxe
          simp [applyData, mkStandingData, hprop.1, hprop.2.1]
        · simp [hid]
      show (List.map (fun r => (r.leagueID, r.teamID))
        (rows.map (fun row =>
          if row.id = ex.id then applyData row (mkStandingData leagueID t) else row))).Nodup
      rw [hkeys]
      exact hk
  | none =>
    rw [persistStep_rtrue_none _ _ _ _ _ hfind]
    cases wOk with
    | false => exact hk
    | true =>
      have hnone := findExisting_none_prop _ _ _ hfind
      show (List.map (fun r => (r.leagueID, r.teamID))
        (rows ++ [mkRow n (mkStandingData leagueID t)])).Nodup
      simp only [List.map_append, List.map_cons, List.map_nil]
      rw [List.nodup_append]
      refine ⟨hk, List.nodup_singleton _, ?_⟩
      intro a ha hb
      simp only [List.mem_singleton, mkRow, mkStandingData] at hb
      obtain ⟨x, hx, hxe⟩ := List.mem_map.mp ha
      have := hnone x hx
      rw [hb] at hxe
      apply this
      have h1 := congrArg Prod.fst hxe
      have h2 := congrArg Prod.snd hxe
      exact ⟨h1, h2⟩

theorem persistLoop_keysOk (leagueID : Int) (outcomes : Nat → StepOutcome)
    (ts : List TeamStanding) (k : Nat) (st : List StandingRow × Int)
    (hread : ∀ i r w, outcomes i = .normal r w → r = true)
    (hg : goodIds st) (hk : keysOk st.1) :
    keysOk (persistLoop leagueID outcomes ts k st).1.1 := by
  induction ts generalizing k st with
  | nil => exact hk
  | cons t rest ih =>
    simp only [persistLoop]
    cases ho : outcomes k with
    | throwErr msg => exact hk
    | normal r w =>
      have hrt : r = true := hread k r w ho
      subst hrt
      exact ih (k + 1) _ (persistStep_goodIds _ _ _ _ _ hg)
        (persistStep_keysOk _ _ _ _ hg hk)

theorem persistStep_frame_keep (leagueID : Int) (t : TeamStanding)
    (rOk wOk : Bool) (st : List StandingRow × Int) (hg : goodIds st)
    (row : StandingRow) (hrow : row ∈ st.1)
    (hkey : ¬(row.leagueID = leagueID ∧ row.teamID = t.teamID)) :
    row ∈ (persistStep leagueID t rOk wOk st).1 := by
  obtain ⟨rows, n⟩ := st
  cases rOk with
  | false =>
    rw [persistStep_rfalse]
    cases wOk with
    | false => exact hrow
    | true => exact List.mem_append.mpr (Or.inl hrow)
  | true =>
    cases hfind : findExisting leagueID t.teamID rows with
    | none =>
      rw [persistStep_rtrue_none _ _ _ _ _ hfind]
      cases wOk with
      | false => exact hrow
      | true => exact List.mem_append.mpr (Or.inl hrow)
    | some ex =>
      rw [persistStep_rtrue_some _ _ _ _ _ _ hfind]
      cases wOk with
      | false => exact hrow
      | true =>
        have hprop := findExisting_prop _ _ _ _ hfind
        have hne : row.id ≠ ex.id := by
          intro hid
          have hxe : row = ex := List.inj_on_of_nodup_map hg.1 hrow hprop.2.2 hid
          exact hkey (hxe ▸ ⟨hprop.1, hprop.2.1⟩)
        exact List.mem_map.mpr ⟨row, hrow, by simp [hne]⟩

theorem persistStep_frame_new (leagueID : Int) (t : TeamStanding)
    (rOk wOk : Bool) (st : List StandingRow × Int) (hg : goodIds st)
    (row : StandingRow) (hrow : row ∈ (persistStep leagueID t rOk wOk st).1) :
    row ∈ st.1 ∨ (row.leagueID = leagueID ∧ row.teamID = t.teamID) := by
  obtain ⟨rows, n⟩ := st
  cases rOk with
  | false =>
    rw [persistStep_rfalse] at hrow
    cases wOk with
    | false => exact Or.inl hrow
    | true =>
      rcases List.mem_append.mp hrow with h | h
      · exact Or.inl h
      · simp only [List.mem_singleton] at h
        subst h
        exact Or.inr ⟨rfl, rfl⟩
  | true =>
    cases hfind : findExisting leagueID t.teamID rows with
    | none =>
      rw [persistStep_rtrue_none _ _ _ _ _ hfind] at hrow
      cases wOk with
      | false => exact Or.inl hrow
      | true =>
        rcases List.mem_append.mp hrow with h | h
        · exact Or.inl h
        · simp only [List.mem_singleton] at h
          subst h
          exact Or.inr ⟨rfl, rfl⟩
    | some ex =>
      rw [persistStep_rtrue_some _ _ _ _ _ _ hfind] at hrow
      cases wOk with
      | false => exact Or.inl hrow
      | true =>
        obtain ⟨x, hx, hxe⟩ := List.mem_map.mp hrow
        by_cases hid : x.id = ex.id
        · simp only [hid, if_true] at hxe
          subst hxe
          exact Or.inr ⟨rfl, rfl⟩
        · simp only [hid, if_false] at hxe
          subst hxe
          exact Or.inl hx

theorem persistLoop_frame_keep (leagueID : Int) (outcomes : Nat → StepOutcome)
    (ts : List TeamStanding) (k : Nat) (st : List StandingRow × Int)
    (T : List Int) (hg : goodIds st) (hts : ∀ t ∈ ts, t.teamID ∈ T)
    (row : StandingRow) (hrow : row ∈ st.1)
    (hkey : row.leagueID ≠ leagueID ∨ row.teamID ∉ T) :
    row ∈ (persistLoop leagueID outcomes ts k st).1.1 := by
  induction ts generalizing k st with
  | nil => exact hrow
  | cons t rest ih =>
    simp only [persistLoop]
    cases ho : outcomes k with
    | throwErr msg => exact hrow
    | normal r w =>
      refine ih (k + 1) _ (persistStep_goodIds _ _ _ _ _ hg)
        (fun u hu => hts u (List.mem_cons_of_mem _ hu)) ?_
      apply persistStep_frame_keep _ _ _ _ _ hg _ hrow
      rcases hkey with h | h
      · exact fun hc => h hc.1
      · exact fun hc => h (hc.2 ▸ hts t (List.mem_cons_self t rest))

theorem persistLoop_frame_new (leagueID : Int) (outcomes : Nat → StepOutcome)
    (ts : List TeamStanding) (k : Nat) (st : List StandingRow × Int)
    (T : List Int) (hg : goodIds st) (hts : ∀ t ∈ ts, t.teamID ∈ T)
    (row : StandingRow) (hrow : row ∈ (persistLoop leagueID outcomes ts k st).1.1) :
    row ∈ st.1 ∨ (row.leagueID = leagueID ∧ row.teamID ∈ T) := by
  induction ts generalizing k st with
  | nil => exact Or.inl hrow
  | cons t rest ih =>
    simp only [persistLoop] at hrow
    cases ho : outcomes k with
    | throwErr msg => rw [ho] at hrow; exact Or.inl hrow
    | normal r w =>
      rw [ho] at hrow
      rcases ih (k + 1) _ (persistStep_goodIds _ _ _ _ _ hg)
          (fun u hu => hts u (List.mem_cons_of_mem _ hu)) hrow with h | h
      · rcases persistStep_frame_new _ _ _ _ _ hg _ h with h2 | h2
        · exact Or.inl h2
        · exact Or.inr ⟨h2.1, h2.2 ▸ hts t (List.mem_cons_self t rest)⟩
      · exact Or.inr h

/-- C1: every standings list computed by `calculateLeagueStandings` (via
`sortedStandings`) is ordered so that for any adjacent pair (a, b) with a
ranked above b: a.points > b.points, or equal points and
a.pointsDifference > b.pointsDifference, or equal points and difference
and a.pointsFor ≥ b.pointsFor; and position is assigned as the 1-based
index in this order. -/
theorem c1_ranking_invariant (leagueID : Int) (fixtures : List Fixture)
    (results : List MatchResult) (i : Nat)
    (h : i < (sortedStandings leagueID fixtures results).length) :
    (sortedStandings leagueID fixtures results).Chain' rankedAboveOrTied ∧
    ((sortedStandings leagueID fixtures results).get ⟨i, h⟩).position = (i : Int) + 1 := by
  constructor
  · apply List.Pairwise.chain'
    unfold sortedStandings assignPositions
    apply posMap_pairwise
    have hs := List.sorted_insertionSort teamLE
      ((completedTeams leagueID fixtures).map
        ((completedLeagueFixtures leagueID fixtures).foldl
          (applyFixture (resultsLookup results)) initStanding))
    exact hs.imp (fun {a b} hab => (cmpTeams_le_iff a b).1 hab)
  · unfold sortedStandings assignPositions at h ⊢
    rw [posMap_get]
    ring

/-- Witness for C1 at a concrete one-fixture world, index 0. -/
theorem c1_ranking_invariant_witness :
    (sortedStandings 1 wDB.fixtures wDB.results).Chain' rankedAboveOrTied ∧
    ((sortedStandings 1 wDB.fixtures wDB.results).get ⟨0, by decide⟩).position =
      (0 : Int) + 1 :=
  c1_ranking_invariant 1 wDB.fixtures wDB.results 0 (by decide)

/-- C2: running `calculateLeagueStandings` twice in a row for the same
league and current season, with fixtures and results unchanged between the
runs, leaves the standings table after the second run identical to its
state after the first run — no duplicate rows and no counter drift,
because each run computes fresh zeroed totals and updates the existing
(leagueID, teamID) row in place.  Hypotheses: the store is well formed
(distinct row ids below the fresh-id counter) and reads and writes
succeed on both runs. -/
theorem c2_idempotent (leagueID : Int) (s : String) (env : Env) (db : DB)
    (hseason : s = env.currentSeason)
    (hf : env.fixturesOk = true) (hr : env.resultsOk = true)
    (hout : ∀ i, env.persistOutcomes i = .normal true true)
    (hids : (db.standings.map (fun r => r.id)).Nodup)
    (hbound : ∀ r ∈ db.standings, r.id < db.nextId) :
    (calculateLeagueStandings leagueID s env
        (calculateLeagueStandings leagueID s env db).1).1.standings =
      (calculateLeagueStandings leagueID s env db).1.standings := by
  subst hseason
  have h1 := calc_run_allok leagueID env db hf hr hout
  rw [h1]
  have h2 := calc_run_allok leagueID env
    { db with
      standings := (persistLoop leagueID env.persistOutcomes
        (sortedStandings leagueID db.fixtures db.results) 0
        (db.standings, db.nextId)).1.1,
      nextId := (persistLoop leagueID env.persistOutcomes
        (sortedStandings leagueID db.fixtures db.results) 0
        (db.standings, db.nextId)).1.2 } hf hr hout
  rw [h2]
  have hg1 : goodIds (db.standings, db.nextId) := ⟨hids, hbound⟩
  have hgood := persistLoop_goodIds leagueID env.persistOutcomes
    (sortedStandings leagueID db.fixtures db.results) 0 (db.standings, db.nextId) hg1
  have hnd := sortedStandings_teamIDs_nodup leagueID db.fixtures db.results
  have hpost := persistLoop_allok_post leagueID env.persistOutcomes
    (sortedStandings leagueID db.fixtures db.results) 0 (db.standings, db.nextId)
    hout hg1 hnd
  have hid := persistLoop_id leagueID env.persistOutcomes
    (sortedStandings leagueID db.fixtures db.results) 0
    ((persistLoop leagueID env.persistOutcomes
        (sortedStandings leagueID db.fixtures db.results) 0
        (db.standings, db.nextId)).1.1,
      (persistLoop leagueID env.persistOutcomes
        (sortedStandings leagueID db.fixtures db.results) 0
        (db.standings, db.nextId)).1.2)
    hout hgood hpost
  simp only
  rw [hid]

/-- Witness for C2 at a concrete store and all-success environment. -/
theorem c2_idempotent_witness :
    (calculateLeagueStandings 1 "2025-26" envAllOk
        (calculateLeagueStandings 1 "2025-26" envAllOk wDB).1).1.standings =
      (calculateLeagueStandings 1 "2025-26" envAllOk wDB).1.standings :=
  c2_idempotent 1 "2025-26" envAllOk wDB rfl rfl rfl (fun _ => rfl) (by decide)
    (by simp [wDB])

/-- C3: for every completed fixture with a result (and no 4-try bonus in
play), when the winner's score exceeds the loser's by exactly 7 points the
losing team receives exactly 1 bonusPoint and 1 league point (won = 0,
lost = 1); at a margin of 8 or more it receives 0 of each; the winner
receives won = 1 and 4 league points in both cases.  Both the home-winner
and away-winner directions are covered. -/
theorem c3_losing_bonus_boundary (fid lid st home away hs aw : Int)
    (hsc asc : ScorersField) (hne : home ≠ away)
    (hnb : ∀ hl al, hsc.decode = some hl → asc.decode = some al →
      tries hl < 4 ∧ tries al < 4) :
    (aw < hs →
      (((applyResult ⟨fid, lid, home, away, st⟩ ⟨fid, hs, aw, hsc, asc⟩ initStanding) home).won = 1 ∧
       ((applyResult ⟨fid, lid, home, away, st⟩ ⟨fid, hs, aw, hsc, asc⟩ initStanding) home).points = 4 ∧
       ((applyResult ⟨fid, lid, home, away, st⟩ ⟨fid, hs, aw, hsc, asc⟩ initStanding) away).won = 0 ∧
       ((applyResult ⟨fid, lid, home, away, st⟩ ⟨fid, hs, aw, hsc, asc⟩ initStanding) away).lost = 1) ∧
      (hs = aw + 7 →
        ((applyResult ⟨fid, lid, home, away, st⟩ ⟨fid, hs, aw, hsc, asc⟩ initStanding) away).bonusPoints = 1 ∧
        ((applyResult ⟨fid, lid, home, away, st⟩ ⟨fid, hs, aw, hsc, asc⟩ initStanding) away).points = 1) ∧
      (aw + 8 ≤ hs →
        ((applyResult ⟨fid, lid, home, away, st⟩ ⟨fid, hs, aw, hsc, asc⟩ initStanding) away).bonusPoints = 0 ∧
        ((applyResult ⟨fid, lid, home, away, st⟩ ⟨fid, hs, aw, hsc, asc⟩ initStanding) away).points = 0)) ∧
    (hs < aw →
      (((applyResult ⟨fid, lid, home, away, st⟩ ⟨fid, hs, aw, hsc, asc⟩ initStanding) away).won = 1 ∧
       ((applyResult ⟨fid, lid, home, away, st⟩ ⟨fid, hs, aw, hsc, asc⟩ initStanding) away).points = 4 ∧
       ((applyResult ⟨fid, lid, home, away, st⟩ ⟨fid, hs, aw, hsc, asc⟩ initStanding) home).won = 0 ∧
       ((applyResult ⟨fid, lid, home, away, st⟩ ⟨fid, hs, aw, hsc, asc⟩ initStanding) home).lost = 1) ∧
      (aw = hs + 7 →
        ((applyResult ⟨fid, lid, home, away, st⟩ ⟨fid, hs, aw, hsc, asc⟩ initStanding) home).bonusPoints = 1 ∧
        ((applyResult ⟨fid, lid, home, away, st⟩ ⟨fid, hs, aw, hsc, asc⟩ initStanding) home).points = 1) ∧
      (hs + 8 ≤ aw →
        ((applyResult ⟨fid, lid, home, away, st⟩ ⟨fid, hs, aw, hsc, asc⟩ initStanding) home).bonusPoints = 0 ∧
        ((applyResult ⟨fid, lid, home, away, st⟩ ⟨fid, hs, aw, hsc, asc⟩ initStanding) home).points = 0)) := by
  have hne2 : away ≠ home := Ne.symm hne
  refine ⟨fun hwin => ?_, fun hwin => ?_⟩
  · have hnw : ¬ (hs < aw) := by omega
    cases hh : hsc.decode with
    | none =>
      cases ha : asc.decode with
      | none =>
        simp only [applyResult, hh, ha, if_pos hwin, if_neg hnw]
        split_ifs <;>
          simp [updT_same, updT_other _ _ _ _ hne, updT_other _ _ _ _ hne2, initStanding] <;>
          omega
      | some al =>
        simp only [applyResult, hh, ha, if_pos hwin, if_neg hnw]
        split_ifs <;>
          simp [updT_same, updT_other _ _ _ _ hne, updT_other _ _ _ _ hne2, initStanding] <;>
          omega
    | some hl =>
      cases ha : asc.decode with
      | none =>
        simp only [applyResult, hh, ha, if_pos hwin, if_neg hnw]
        split_ifs <;>
          simp [updT_same, updT_other _ _ _ _ hne, updT_other _ _ _ _ hne2, initStanding] <;>
          omega
      | some al =>
        have h4 := hnb hl al hh ha
        simp only [tries] at h4
        have h4h : ¬ (4 ≤ (hl.filter (fun sc => sc.scoreType = "try")).length) := by omega
        have h4a : ¬ (4 ≤ (al.filter (fun sc => sc.scoreType = "try")).length) := by omega
        simp only [applyResult, hh, ha, if_pos hwin, if_neg hnw, if_neg h4h, if_neg h4a]
        split_ifs <;>
          simp [updT_same, updT_other _ _ _ _ hne, updT_other _ _ _ _ hne2, initStanding] <;>
          omega
  · have hnw : ¬ (aw < hs) := by omega
    cases hh : hsc.decode with
    | none =>
      cases ha : asc.decode with
      | none =>
        simp only [applyResult, hh, ha, if_neg hnw, if_pos hwin]
        split_ifs <;>
          simp [updT_same, updT_other _ _ _ _ hne, updT_other _ _ _ _ hne2, initStanding] <;>
          omega
      | some al =>
        simp only [applyResult, hh, ha, if_neg hnw, if_pos hwin]
        split_ifs <;>
          simp [updT_same, updT_other _ _ _ _ hne, updT_other _ _ _ _ hne2, initStanding] <;>
          omega
    | some hl =>
      cases ha : asc.decode with
      | none =>
        simp only [applyResult, hh, ha, if_neg hnw, if_pos hwin]
        split_ifs <;>
          simp [updT_same, updT_other _ _ _ _ hne, updT_other _ _ _ _ hne2, initStanding] <;>
          omega
      | some al =>
        have h4 := hnb hl al hh ha
        simp only [tries] at h4
        have h4h : ¬ (4 ≤ (hl.filter (fun sc => sc.scoreType = "try")).length) := by omega
        have h4a : ¬ (4 ≤ (al.filter (fun sc => sc.scoreType = "try")).length) := by omega
        simp only [applyResult, hh, ha, if_neg hnw, if_pos hwin, if_neg h4h, if_neg h4a]
        split_ifs <;>
          simp [updT_same, updT_other _ _ _ _ hne, updT_other _ _ _ _ hne2, initStanding] <;>
          omega

end Colts

namespace Colts

set_option maxHeartbeats 1600000 in

/-- Witness for C3 at the spec scenarios 20-13 and 20-12. -/
theorem c3_losing_bonus_boundary_witness :
    ((applyResult ⟨100, 1, 10, 20, 2⟩ ⟨100, 20, 13, .absent, .absent⟩ initStanding) 20).bonusPoints = 1 ∧
    ((applyResult ⟨100, 1, 10, 20, 2⟩ ⟨100, 20, 13, .absent, .absent⟩ initStanding) 20).points = 1 ∧
    ((applyResult ⟨100, 1, 10, 20, 2⟩ ⟨100, 20, 13, .absent, .absent⟩ initStanding) 10).points = 4 ∧
    ((applyResult ⟨100, 1, 10, 20, 2⟩ ⟨100, 20, 12, .absent, .absent⟩ initStanding) 20).bonusPoints = 0 ∧
    ((applyResult ⟨100, 1, 10, 20, 2⟩ ⟨100, 20, 12, .absent, .absent⟩ initStanding) 20).points = 0 := by
  have habs : ∀ hl al, ScorersField.absent.decode = some hl →
      ScorersField.absent.decode = some al → tries hl < 4 ∧ tries al < 4 := by
    intro hl al h1 h2
    injection h1 with e1
    injection h2 with e2
    subst e1
    subst e2
    decide
  have h13 := c3_losing_bonus_boundary 100 1 2 10 20 20 13 .absent .absent (by decide) habs
  have h12 := c3_losing_bonus_boundary 100 1 2 10 20 20 12 .absent .absent (by decide) habs
  refine ⟨((h13.1 (by decide)).2.1 (by decide)).1, ((h13.1 (by decide)).2.1 (by decide)).2,
    (h13.1 (by decide)).1.2.1, ((h12.1 (by decide)).2.2 (by decide)).1,
    ((h12.1 (by decide)).2.2 (by decide)).2⟩

/-- C4 counterexample: a run in which the per-team standings re-read
returns a failure status violates the claimed uniqueness preservation.
The store starts with exactly one row per (leagueID, teamID); the re-read
failure makes the engine fall back to an empty list, find no existing row
for (1, 10) and create a duplicate of the pre-existing row. -/
theorem c4_uniqueness_counterexample :
    keysOk ([⟨50, 1, 10, 0, 0, 0, 0, 0, 0, 0, 0, 0⟩] : List StandingRow) ∧
    ¬ keysOk (calculateLeagueStandings 1 "2025-26"
      ⟨"2025-26", true, true, fun _ => .normal false true⟩
      ⟨[⟨100, 1, 10, 20, 2⟩], [⟨100, 20, 13, .absent, .absent⟩],
        [⟨50, 1, 10, 0, 0, 0, 0, 0, 0, 0, 0, 0⟩], 51⟩).1.standings := by
  constructor
  · decide
  · decide

/-- C4 (amended): a single execution of `calculateLeagueStandings`
preserves the at-most-one-row-per-(leagueID, teamID) invariant provided
every per-team standings re-read that the loop performs returns a success
status (writes may fail or throw, and the season gate and initial reads
may take any path).  The claim as stated — including runs whose re-read
returns a failure status — is refuted by `c4_uniqueness_counterexample`. -/
theorem c4_uniqueness_amended (leagueID : Int) (s : String) (env : Env) (db : DB)
    (hread : ∀ i r w, env.persistOutcomes i = .normal r w → r = true)
    (hids : (db.standings.map (fun r => r.id)).Nodup)
    (hbound : ∀ r ∈ db.standings, r.id < db.nextId)
    (hk : keysOk db.standings) :
    keysOk (calculateLeagueStandings leagueID s env db).1.standings := by
  unfold calculateLeagueStandings
  split_ifs with h1 h2 h3
  · exact hk
  · exact hk
  · exact hk
  · rcases hres : persistLoop leagueID env.persistOutcomes
      (sortedStandings leagueID db.fixtures db.results) 0 (db.standings, db.nextId)
      with ⟨⟨rows, n⟩, err⟩
    have hloop := persistLoop_keysOk leagueID env.persistOutcomes
      (sortedStandings leagueID db.fixtures db.results) 0 (db.standings, db.nextId)
      hread ⟨hids, hbound⟩ hk
    rw [hres] at hloop
    cases err <;> simp [hres] <;> exact hloop

/-- Witness for the amended C4 at a concrete all-success run. -/
theorem c4_uniqueness_amended_witness :
    keysOk (calculateLeagueStandings 1 "2025-26" envAllOk wDB).1.standings :=
  c4_uniqueness_amended 1 "2025-26" envAllOk wDB
    (fun _ r _ h => by injection h with h1 _; exact h1.symm)
    (by decide) (by simp [wDB]) (by decide)

/-- C5: invoking `calculateLeagueStandings` with a `leagueSeason`
different from the configured current season returns success with the
distinguishing message "Not current season" and leaves the whole store
(standings included) unchanged: no DataStore write is performed. -/
theorem c5_season_gate_skips (leagueID : Int) (leagueSeason : String)
    (env : Env) (db : DB) (h : leagueSeason ≠ env.currentSeason) :
    calculateLeagueStandings leagueID leagueSeason env db =
      (db, { success := true, message := "Not current season" }) := by
  simp [calculateLeagueStandings, h]

/-- Witness for C5 at a concrete league, season, environment and store. -/
theorem c5_season_gate_skips_witness :
    ("2024-25" : String) ≠ envAllOk.currentSeason ∧
    calculateLeagueStandings 1 "2024-25" envAllOk wDB =
      (wDB, { success := true, message := "Not current season" }) :=
  ⟨by decide, c5_season_gate_skips 1 "2024-25" envAllOk wDB (by decide)⟩

/-- C6: when the fixtures read or the results read returns an
unsuccessful status, the run aborts at once with `success := false` and a
message carrying the underlying error, and the store — in particular the
standings table — is unchanged: no Standing row is created or updated. -/
theorem c6_read_failure_aborts (leagueID : Int) (s : String) (env : Env)
    (db : DB) (hseason : s = env.currentSeason) :
    (env.fixturesOk = false →
      calculateLeagueStandings leagueID s env db =
        (db, { success := false, message := "Failed to fetch fixtures" })) ∧
    (env.fixturesOk = true → env.resultsOk = false →
      calculateLeagueStandings leagueID s env db =
        (db, { success := false, message := "Failed to fetch results" })) := by
  subst hseason
  refine ⟨fun h1 => ?_, fun h1 h2 => ?_⟩
  · simp [calculateLeagueStandings, h1]
  · simp [calculateLeagueStandings, h1, h2]

/-- Witness for C6: a concrete run whose fixtures read fails, and one
whose results read fails. -/
theorem c6_read_failure_aborts_witness :
    (("2025-26" : String) = (Env.mk "2025-26" false true (fun _ => .normal true true)).currentSeason) ∧
    (calculateLeagueStandings 1 "2025-26" (Env.mk "2025-26" false true (fun _ => .normal true true)) wDB =
      (wDB, { success := false, message := "Failed to fetch fixtures" })) ∧
    (calculateLeagueStandings 1 "2025-26" (Env.mk "2025-26" true false (fun _ => .normal true true)) wDB =
      (wDB, { success := false, message := "Failed to fetch results" })) := by
  refine ⟨rfl, ?_, ?_⟩
  · exact (c6_read_failure_aborts 1 "2025-26" _ wDB rfl).1 rfl
  · exact (c6_read_failure_aborts 1 "2025-26" _ wDB rfl).2 rfl rfl

/-- C7 counterexample: a create/update call that throws does abort the
remaining teams and the run returns success = false with the thrown
message, contradicting the claim that any per-team persistence failure is
logged and the operation still returns success.  The store shows no row
was persisted before the abort. -/
theorem c7_write_throw_counterexample :
    (calculateLeagueStandings 1 "2025-26"
      ⟨"2025-26", true, true,
        fun i => if i = 0 then .throwErr "Network error" else .normal true true⟩
      ⟨[⟨100, 1, 10, 20, 2⟩], [⟨100, 20, 13, .absent, .absent⟩], [], 1⟩).2.success = false ∧
    (calculateLeagueStandings 1 "2025-26"
      ⟨"2025-26", true, true,
        fun i => if i = 0 then .throwErr "Network error" else .normal true true⟩
      ⟨[⟨100, 1, 10, 20, 2⟩], [⟨100, 20, 13, .absent, .absent⟩], [], 1⟩).1.standings = [] := by
  decide

/-- C7 (amended): a create/update that merely returns a failure status is
never inspected by the engine, so it does not abort the loop and the
operation still returns success with message "Standings updated
successfully"; but a create/update (or per-team re-read) that throws
propagates to the outer catch, aborts the remaining teams, and the
operation returns success = false carrying the thrown message. -/
theorem c7_persistence_failures_amended (leagueID : Int) (s : String) (env : Env) (db : DB)
    (hseason : s = env.currentSeason)
    (hf : env.fixturesOk = true) (hr : env.resultsOk = true) :
    ((∀ i msg, env.persistOutcomes i ≠ .throwErr msg) →
      (calculateLeagueStandings leagueID s env db).2 =
        { success := true, message := "Standings updated successfully" }) ∧
    (∀ i msg, env.persistOutcomes i = .throwErr msg →
      (∀ j, j < i → ∀ m, env.persistOutcomes j ≠ .throwErr m) →
      i < (sortedStandings leagueID db.fixtures db.results).length →
      (calculateLeagueStandings leagueID s env db).2 =
        { success := false, message := msg }) := by
  subst hseason
  constructor
  · intro h
    have h2 := persistLoop_nothrow_snd leagueID env.persistOutcomes
      (sortedStandings leagueID db.fixtures db.results) 0 (db.standings, db.nextId) h
    simp only [calculateLeagueStandings, ne_eq, not_true_eq_false, if_false, hf, hr,
      Bool.true_eq_false, if_neg]
    rw [h2]
  · intro i msg hthrow hbefore hlen
    have h2 := persistLoop_throw_snd leagueID env.persistOutcomes
      (sortedStandings leagueID db.fixtures db.results) 0 (db.standings, db.nextId) i msg
      hthrow (fun j _ h2 m => hbefore j h2 m) (Nat.zero_le i) (by omega)
    simp only [calculateLeagueStandings, ne_eq, not_true_eq_false, if_false, hf, hr,
      Bool.true_eq_false, if_neg]
    rw [h2]

/-- Witness for the amended C7: a run whose writes all return failure
statuses still reports success, and a run whose first write throws
reports the thrown message. -/
theorem c7_persistence_failures_amended_witness :
    ((calculateLeagueStandings 1 "2025-26" envFailWrite wDB).2 =
      { success := true, message := "Standings updated successfully" }) ∧
    ((calculateLeagueStandings 1 "2025-26" envThrow wDB).2 =
      { success := false, message := "Network error" }) := by
  constructor
  · exact (c7_persistence_failures_amended 1 "2025-26" envFailWrite wDB rfl rfl rfl).1
      (fun i msg h => StepOutcome.noConfusion h)
  · exact (c7_persistence_failures_amended 1 "2025-26" envThrow wDB rfl rfl rfl).2 0 "Network error" rfl
      (fun j hj m => absurd hj (Nat.not_lt_zero j)) (by decide)

/-- C8 counterexample: with homeScorers malformed and awayScorers a
well-formed list of 4 tries (margin 8, so no losing bonus), the away team
receives no bonus point at all — the single try/catch around both decodes
skips the whole try-bonus section, contrary to the claim that the away
team still receives its try bonus. -/
theorem c8_scorer_parse_counterexample :
    4 ≤ tries [⟨"try"⟩, ⟨"try"⟩, ⟨"try"⟩, ⟨"try"⟩] ∧
    ((applyResult ⟨100, 1, 10, 20, 2⟩
        ⟨100, 20, 12, .badVal, .listVal [⟨"try"⟩, ⟨"try"⟩, ⟨"try"⟩, ⟨"try"⟩]⟩
        initStanding) 20).bonusPoints = 0 ∧
    ((applyResult ⟨100, 1, 10, 20, 2⟩
        ⟨100, 20, 12, .badVal, .listVal [⟨"try"⟩, ⟨"try"⟩, ⟨"try"⟩, ⟨"try"⟩]⟩
        initStanding) 20).points = 0 := by
  decide

/-- C8 (amended): each scorer field is decoded defensively (structured
list, JSON string, or absent-as-empty), and the engine never throws on
malformed scorer data; but a decode failure on either field causes the
entire 4-try bonus step to be skipped for both teams of that fixture —
processing one fixture with a failing scorer field equals processing it
with both fields malformed. -/
theorem c8_scorer_failure_skips_both (f : Fixture) (r : MatchResult)
    (s0 : Int → TeamStanding)
    (h : r.homeScorers.decode = none ∨ r.awayScorers.decode = none) :
    applyResult f r s0 =
      applyResult f { r with homeScorers := .badVal, awayScorers := .badVal } s0 := by
  have hb : ScorersField.badVal.decode = none := rfl
  rcases h with h | h
  · cases ha : r.awayScorers.decode <;>
      simp [applyResult, h, ha, hb]
  · cases hh : r.homeScorers.decode <;>
      simp [applyResult, h, hh, hb]

/-- Witness for the amended C8 at a concrete malformed home field. -/
theorem c8_scorer_failure_skips_both_witness :
    applyResult ⟨100, 1, 10, 20, 2⟩ ⟨100, 20, 13, .badVal, .listVal fourTries⟩ initStanding =
      applyResult ⟨100, 1, 10, 20, 2⟩ ⟨100, 20, 13, .badVal, .badVal⟩ initStanding :=
  c8_scorer_failure_skips_both ⟨100, 1, 10, 20, 2⟩ ⟨100, 20, 13, .badVal, .listVal fourTries⟩
    initStanding (Or.inl rfl)

/-- C9: the two bonus rules apply independently of the win/draw/loss
award: a winning team with 4 or more tries receives 4 win points plus 1
try-bonus point (5 league points, bonusPoints = 1), and a team losing by
7 or fewer with 4 or more tries accumulates both the losing bonus and the
try bonus (bonusPoints = 2, 2 league points).  Both the home and away
directions are covered. -/
theorem c9_bonus_independence (fid lid st home away hs aw : Int)
    (hl al : List Scorer) (hne : home ≠ away) :
    (aw < hs → 4 ≤ tries hl →
      ((applyResult ⟨fid, lid, home, away, st⟩ ⟨fid, hs, aw, .listVal hl, .listVal al⟩ initStanding) home).won = 1 ∧
      ((applyResult ⟨fid, lid, home, away, st⟩ ⟨fid, hs, aw, .listVal hl, .listVal al⟩ initStanding) home).points = 5 ∧
      ((applyResult ⟨fid, lid, home, away, st⟩ ⟨fid, hs, aw, .listVal hl, .listVal al⟩ initStanding) home).bonusPoints = 1) ∧
    (aw < hs → hs ≤ aw + 7 → 4 ≤ tries al →
      ((applyResult ⟨fid, lid, home, away, st⟩ ⟨fid, hs, aw, .listVal hl, .listVal al⟩ initStanding) away).bonusPoints = 2 ∧
      ((applyResult ⟨fid, lid, home, away, st⟩ ⟨fid, hs, aw, .listVal hl, .listVal al⟩ initStanding) away).points = 2) ∧
    (hs < aw → 4 ≤ tries al →
      ((applyResult ⟨fid, lid, home, away, st⟩ ⟨fid, hs, aw, .listVal hl, .listVal al⟩ initStanding) away).won = 1 ∧
      ((applyResult ⟨fid, lid, home, away, st⟩ ⟨fid, hs, aw, .listVal hl, .listVal al⟩ initStanding) away).points = 5 ∧
      ((applyResult ⟨fid, lid, home, away, st⟩ ⟨fid, hs, aw, .listVal hl, .listVal al⟩ initStanding) away).bonusPoints = 1) ∧
    (hs < aw → aw ≤ hs + 7 → 4 ≤ tries hl →
      ((applyResult ⟨fid, lid, home, away, st⟩ ⟨fid, hs, aw, .listVal hl, .listVal al⟩ initStanding) home).bonusPoints = 2 ∧
      ((applyResult ⟨fid, lid, home, away, st⟩ ⟨fid, hs, aw, .listVal hl, .listVal al⟩ initStanding) home).points = 2) := by
  have hne2 : away ≠ home := Ne.symm hne
  refine ⟨fun hwin h4 => ?_, fun hwin hm h4 => ?_, fun hwin h4 => ?_, fun hwin hm h4 => ?_⟩
  · have hnw : ¬ (hs < aw) := by omega
    simp only [tries] at h4
    simp only [applyResult, ScorersField.decode, if_pos hwin, if_neg hnw, if_pos h4]
    split_ifs <;>
      simp [updT_same, updT_other _ _ _ _ hne, updT_other _ _ _ _ hne2, initStanding]
  · have hnw : ¬ (hs < aw) := by omega
    simp only [tries] at h4
    simp only [applyResult, ScorersField.decode, if_pos hwin, if_neg hnw, if_pos hm, if_pos h4]
    split_ifs <;>
      simp [updT_same, updT_other _ _ _ _ hne, updT_other _ _ _ _ hne2, initStanding]
  · have hnw : ¬ (aw < hs) := by omega
    simp only [tries] at h4
    simp only [applyResult, ScorersField.decode, if_neg hnw, if_pos hwin, if_pos h4]
    split_ifs <;>
      simp [updT_same, updT_other _ _ _ _ hne, updT_other _ _ _ _ hne2, initStanding]
  · have hnw : ¬ (aw < hs) := by omega
    simp only [tries] at h4
    simp only [applyResult, ScorersField.decode, if_neg hnw, if_pos hwin, if_pos hm, if_pos h4]
    split_ifs <;>
      simp [updT_same, updT_other _ _ _ _ hne, updT_other _ _ _ _ hne2, initStanding]

/-- Witness for C9 at a 20-13 result with four tries on both sides. -/
theorem c9_bonus_independence_witness :
    ((applyResult ⟨100, 1, 10, 20, 2⟩ ⟨100, 20, 13, .listVal fourTries, .listVal fourTries⟩ initStanding) 10).points = 5 ∧
    ((applyResult ⟨100, 1, 10, 20, 2⟩ ⟨100, 20, 13, .listVal fourTries, .listVal fourTries⟩ initStanding) 10).bonusPoints = 1 ∧
    ((applyResult ⟨100, 1, 10, 20, 2⟩ ⟨100, 20, 13, .listVal fourTries, .listVal fourTries⟩ initStanding) 20).bonusPoints = 2 ∧
    ((applyResult ⟨100, 1, 10, 20, 2⟩ ⟨100, 20, 13, .listVal fourTries, .listVal fourTries⟩ initStanding) 20).points = 2 := by
  have h := c9_bonus_independence 100 1 2 10 20 20 13 fourTries fourTries (by decide)
  exact ⟨(h.1 (by decide) (by decide)).2.1, (h.1 (by decide) (by decide)).2.2,
    (h.2.1 (by decide) (by decide) (by decide)).1, (h.2.1 (by decide) (by decide) (by decide)).2⟩

/-- C10: a run of `calculateLeagueStandings` only creates or updates
Standing rows keyed by the given league and a team appearing in one of
that league's status-2 (completed) fixtures: every pre-existing row of
another league or of a team outside `completedTeams` survives unchanged,
and every row of the final table is either a pre-existing row or keyed by
(leagueID, team ∈ completedTeams). -/
theorem c10_frame_effect (leagueID : Int) (s : String) (env : Env) (db : DB)
    (hids : (db.standings.map (fun r => r.id)).Nodup)
    (hbound : ∀ r ∈ db.standings, r.id < db.nextId) :
    (∀ row ∈ db.standings,
      row.leagueID ≠ leagueID ∨ row.teamID ∉ completedTeams leagueID db.fixtures →
      row ∈ (calculateLeagueStandings leagueID s env db).1.standings) ∧
    (∀ row ∈ (calculateLeagueStandings leagueID s env db).1.standings,
      row ∈ db.standings ∨
      (row.leagueID = leagueID ∧ row.teamID ∈ completedTeams leagueID db.fixtures)) := by
  unfold calculateLeagueStandings
  split_ifs with h1 h2 h3
  · exact ⟨fun row hrow _ => hrow, fun row hrow => Or.inl hrow⟩
  · exact ⟨fun row hrow _ => hrow, fun row hrow => Or.inl hrow⟩
  · exact ⟨fun row hrow _ => hrow, fun row hrow => Or.inl hrow⟩
  · rcases hres : persistLoop leagueID env.persistOutcomes
      (sortedStandings leagueID db.fixtures db.results) 0 (db.standings, db.nextId)
      with ⟨⟨rows, n⟩, err⟩
    have hkeep := persistLoop_frame_keep leagueID env.persistOutcomes
      (sortedStandings leagueID db.fixtures db.results) 0 (db.standings, db.nextId)
      (completedTeams leagueID db.fixtures) ⟨hids, hbound⟩
      (fun t ht => sortedStandings_teamID_mem leagueID db.fixtures db.results t ht)
    have hnew := persistLoop_frame_new leagueID env.persistOutcomes
      (sortedStandings leagueID db.fixtures db.results) 0 (db.standings, db.nextId)
      (completedTeams leagueID db.fixtures) ⟨hids, hbound⟩
      (fun t ht => sortedStandings_teamID_mem leagueID db.fixtures db.results t ht)
    rw [hres] at hkeep hnew
    cases err <;> simp only [hres] <;>
      exact ⟨fun row hrow hkey => hkeep row hrow hkey, fun row hrow => hnew row hrow⟩

/-- Witness for C10: a row of another league survives a concrete run
unchanged. -/
theorem c10_frame_effect_witness :
    wForeignRow ∈ (calculateLeagueStandings 1 "2025-26" envAllOk wDB10).1.standings :=
  (c10_frame_effect 1 "2025-26" envAllOk wDB10 (by decide) (by decide)).1 wForeignRow
    (by decide) (Or.inl (by decide))

end Colts
